import Mathlib

/-!
Verification of the session registry and player-lifecycle engine of
Acquire_rs_web against its specification.

The repository contains two coexisting draft revisions of the engine:

* the earlier revision in `src/src/game/mod.rs` (`GameManager` keyed by
  `i32` user ids, `user_disconnected`, `delete_game`, `GameCode`), used by
  `src/src/requests.rs`;
* the later revision in `src/src/game/game_instance/mod.rs`,
  `src/src/game/base_game.rs` and `src/src/authentication.rs`
  (`GameInstance` keyed by `Uuid`, recovery ids `Urid`/`Urids`), used by
  `src/src/paths.rs`.

Both are embedded below.  Randomly generated values (game codes, user
ids, uuids, urids) are passed in as explicit parameters; the generators'
freshness guarantees become hypotheses.  Rust `Vec::remove` and
`Option::unwrap` panics are modelled by `Option`-valued functions
returning `none`.
-/

namespace Acquire

/-- All characters that can be used to generate a game code
(`GAME_CODE_CHARSET` in `src/src/game/mod.rs` and
`src/src/game/game_instance/mod.rs`). -/
def GAME_CODE_CHARSET : List Char := "0123456789ABCDEFGHIJKLMNOPQRSTUVWZ".toList

/-- A game code (`struct GameCode` in `src/src/game/mod.rs`, identical in
`src/src/game/game_instance/mod.rs`).  The Rust field has type
`[char; 8]`; the embedding uses a list of chars, with the length-eight
fact carried in theorems where it matters. -/
structure GameCode where
  game_code : List Char
  deriving DecidableEq, Repr

/-- Embeds `GameCode::new` (`src/src/game/mod.rs` lines 403-407): wraps
the characters, always returning `Some`. -/
def GameCode.new (random_chars : List Char) : Option GameCode :=
  some { game_code := random_chars }

/-- Embeds `<GameCode as ToString>::to_string` (`src/src/game/mod.rs`
lines 447-459): renders the first four characters, then a dash, then the
remaining characters. -/
def GameCode.to_string (c : GameCode) : List Char :=
  c.game_code.take 4 ++ '-' :: c.game_code.drop 4

/-- The character loop of `GameCode::from_string`
(`src/src/game/mod.rs` lines 421-440): walks the characters with their
index; `secondHalf` is set once the dash at index 4 was seen and shifts
every later write index down by one; a character outside the charset at
an index other than 4, or a non-dash at index 4, rejects the input. -/
def fromStringLoop : List Char → Nat → Bool → List Char → Option (List Char)
  | [], _, _, gc => some gc
  | ch :: rest, index, secondHalf, gc =>
    if index ≠ 4 then
      if ch ∈ GAME_CODE_CHARSET then
        if secondHalf then
          fromStringLoop rest (index + 1) secondHalf (gc.set (index - 1) ch)
        else
          fromStringLoop rest (index + 1) secondHalf (gc.set index ch)
      else
        none
    else
      if ch ≠ '-' then none
      else fromStringLoop rest (index + 1) true gc

/-- Embeds `GameCode::from_string` (`src/src/game/mod.rs` lines 416-444,
verbatim copy in `src/src/game/game_instance/mod.rs` lines 248-276):
rejects strings longer than nine characters, then scans the characters
with `fromStringLoop` over an initial buffer of eight filler characters
`'a'`; positions never written keep the filler. -/
def GameCode.from_string (s : List Char) : Option GameCode :=
  if s.length > 9 then none
  else (fromStringLoop s 0 false (List.replicate 8 'a')).map fun gc => { game_code := gc }

/-- Example game code `AAAA-AAAA` used by the concrete evaluations. -/
def exCode : GameCode := { game_code := ['A', 'A', 'A', 'A', 'A', 'A', 'A', 'A'] }


/-- Ip addresses are treated as abstract identifiers of a network
origin; nothing in the embedded code inspects their structure. -/
abbrev IpAddr := Nat

/-- Functional rendering of mutating the first element matching `p`
through a `_mut` accessor (`game_by_code_mut`, the `user_connected`
loop): every other element is untouched. -/
def updateFirst (p : α → Bool) (f : α → α) : List α → List α
  | [] => []
  | x :: xs => if p x then f x :: xs else x :: updateFirst p f xs

/-- Embeds `Vec::remove(index)`: removes the element at `index`,
panicking (modelled as `none`) when the index is out of bounds. -/
def vecRemove (l : List α) (i : Nat) : Option (List α) :=
  if i < l.length then some (l.eraseIdx i) else none

/-- Embeds the `for (index, x) in v.iter().enumerate()` loops of
`GameManager::delete_game` that remember the last matching index:
returns the last index (counting from `i`) whose element satisfies `p`,
or `none` when no element matches. -/
def lastIdx? (p : α → Bool) : List α → Nat → Option Nat
  | [], _ => none
  | x :: xs, i =>
    match lastIdx? p xs (i + 1) with
    | some j => some j
    | none => if p x then some i else none

/-- Indices (counting from `i`) of all elements satisfying `p`, in
increasing order: the inner `users.iter().enumerate()` loop of
`GameManager::delete_game` collecting `users_to_remove`. -/
def matchIdxs (p : α → Bool) : List α → Nat → List Nat
  | [], _ => []
  | x :: xs, i =>
    if p x then i :: matchIdxs p xs (i + 1) else matchIdxs p xs (i + 1)

/-- Sequential `Vec::remove` calls over a pre-recorded list of indices
(the final removal loop of `GameManager::delete_game`); `none` when any
single removal panics. -/
def removeSeq (l : List α) : List Nat → Option (List α)
  | [] => some l
  | i :: is =>
    match vecRemove l i with
    | some l2 => removeSeq l2 is
    | none => none

namespace OldDraft

/-- Embeds `User` (`src/src/game/mod.rs` lines 468-479), the
earlier-revision authentication record. -/
structure User where
  ip_address : Option IpAddr
  username : String
  user_id : Int
  connected : Bool
  deriving DecidableEq, Repr

/-- Embeds `User::new` (`src/src/game/mod.rs` lines 488-495): every user
starts disconnected. -/
def User.new (ip_address : Option IpAddr) (username : String) (user_id : Int) : User :=
  { ip_address := ip_address, username := username, user_id := user_id, connected := false }

/-- Modelled from the spec: the earlier-revision `Player` used by the
`GameManager` of `src/src/game/mod.rs` (constructed via
`game.add_player(user.name(), user.id())`, queried via `player.id()`,
owner flag set via `game.set_game_master(user.id())`) is not under
`src/` — only those call sites are.  Per spec §3 a participant record
carries the display name, the identity and the owner flag. -/
structure Player where
  name : String
  id : Int
  game_master : Bool
  deriving DecidableEq, Repr

/-- Embeds the earlier-revision `GameInstance` as used by
`src/src/game/mod.rs`: a player list and the immutable game code. -/
structure GameInstance where
  players : List Player
  game_code : GameCode
  deriving DecidableEq, Repr

/-- Embeds `GameInstance::new(code)` as called from
`GameManager::create_game`: an empty player list. -/
def GameInstance.new (game_code : GameCode) : GameInstance :=
  { players := [], game_code := game_code }

/-- Modelled from the spec: `GameInstance::add_player` as called from
`GameManager::create_game` and `GameManager::add_player_to_game` is not
under `src/`; spec §4.2 `add_participant` appends the candidate to the
participant list (the earlier revision has no started state to guard). -/
def GameInstance.add_player (g : GameInstance) (name : String) (id : Int) : GameInstance :=
  { g with players := g.players ++ [{ name := name, id := id, game_master := false }] }

/-- Modelled from the spec: `GameInstance::set_game_master(i32)` as
called from `GameManager::create_game` is not under `src/`; spec §4.2
`set_owner` sets the owner flag on the matching participant and clears
it on every other one, failing without mutation when the id is
unknown. -/
def GameInstance.set_game_master (g : GameInstance) (id : Int) : GameInstance × Bool :=
  if g.players.any fun p => p.id == id then
    ({ g with players := (g.players.map fun p => if p.id == id then { p with game_master := true } else { p with game_master := false }) }, true)
  else (g, false)

/-- Modelled from the spec: `UserRegistration` (`crate::request_data`)
is used by `src/src/game/mod.rs` but its definition is not under `src/`;
spec §6 gives the registration response shape (identity and code; the
earlier revision additionally reports whether an ip address was sent). -/
structure UserRegistration where
  user_id : Int
  game_code : GameCode
  ip_address_send : Bool
  deriving DecidableEq, Repr

/-- Embeds `GameManager` (`src/src/game/mod.rs` lines 27-44). -/
structure GameManager where
  games : List GameInstance
  users : List User
  used_user_ids : List Int
  used_game_codes : List GameCode
  deriving DecidableEq, Repr

/-- Embeds `GameManager::new` (`src/src/game/mod.rs` lines 47-54). -/
def GameManager.new : GameManager :=
  { games := [], users := [], used_user_ids := [], used_game_codes := [] }

/-- Embeds `GameManager::game_by_code` (`src/src/game/mod.rs` lines
197-205): the first game whose code matches. -/
def GameManager.game_by_code (gm : GameManager) (game_code : GameCode) : Option GameInstance :=
  gm.games.find? fun g => g.game_code == game_code

/-- Embeds `GameManager::game_by_user_id` (`src/src/game/mod.rs` lines
182-191): the first game one of whose players has the id. -/
def GameManager.game_by_user_id (gm : GameManager) (id : Int) : Option GameInstance :=
  gm.games.find? fun g => g.players.any fun p => p.id == id

/-- Embeds `GameManager::does_game_exist` (`src/src/game/mod.rs` lines
221-223): membership in the used-game-code list. -/
def GameManager.does_game_exist (gm : GameManager) (game_code : GameCode) : Bool :=
  gm.used_game_codes.contains game_code

/-- Embeds `GameManager::create_game` (`src/src/game/mod.rs` lines
78-94).  The randomly generated game code and user id are passed in as
`code` and `user_id`; `generate_game_code`/`generate_user_id` guarantee
they are outside the used-sets.  Always returns a registration. -/
def GameManager.create_game (gm : GameManager) (username : String)
    (ip_address : Option IpAddr) (code : GameCode) (user_id : Int) :
    GameManager × Option UserRegistration :=
  let user := User.new ip_address username user_id
  let game := ((GameInstance.new code).add_player user.username
    user.user_id).set_game_master user.user_id
  ({ games := gm.games ++ [game.1],
     users := gm.users ++ [user],
     used_user_ids := gm.used_user_ids ++ [user_id],
     used_game_codes := gm.used_game_codes ++ [code] },
   some { user_id := user_id, game_code := code, ip_address_send := ip_address.isSome })

/-- Embeds `GameManager::add_player_to_game` (`src/src/game/mod.rs`
lines 152-175): when the game exists, appends a player to it, registers
the new user and the freshly generated `user_id`, sends an `AddPlayer`
event (delivery not modelled) and returns the registration; when the
game does not exist, returns `None` and only the already-generated
`user_id` is discarded, leaving the manager unchanged. -/
def GameManager.add_player_to_game (gm : GameManager) (game_code : GameCode)
    (username : String) (ip_address : Option IpAddr) (user_id : Int) :
    GameManager × Option UserRegistration :=
  match gm.game_by_code game_code with
  | some _ =>
    let user := User.new ip_address username user_id
    ({ gm with
        games := (updateFirst (fun g => g.game_code == game_code) (fun g => g.add_player user.username user.user_id) gm.games),
        users := gm.users ++ [user],
        used_user_ids := gm.used_user_ids ++ [user_id] },
     some { user_id := user_id, game_code := game_code, ip_address_send := ip_address.isSome })
  | none => (gm, none)

/-- Embeds `GameManager::user_connected` (`src/src/game/mod.rs` lines
279-287): marks the first user with the id as connected. -/
def GameManager.user_connected (gm : GameManager) (user_id : Int) : GameManager × Bool :=
  if gm.users.any fun u => u.user_id == user_id then
    ({ gm with users := (updateFirst (fun u => u.user_id == user_id) (fun u => { u with connected := true }) gm.users) }, true)
  else (gm, false)

/-- Embeds `GameManager::users_connected` (`src/src/game/mod.rs` lines
297-315): whether some player of the game matches some connected user;
`none` when the game does not exist. -/
def GameManager.users_connected (gm : GameManager) (game_code : GameCode) : Option Bool :=
  match gm.game_by_code game_code with
  | some game =>
    some (game.players.any fun p => gm.users.any fun u => p.id == u.user_id && u.connected)
  | none => none

/-- Embeds `GameManager::delete_game` (`src/src/game/mod.rs` lines
103-139).  A `none` result models a panic of the original: the removal
loop feeds `Vec::remove` indices that were recorded before earlier
removals shifted the vector, so removing the users of a game with two or
more members goes out of bounds.  Note that `used_user_ids` is never
touched, so member identities are not released. -/
def GameManager.delete_game (gm : GameManager) (game_code : GameCode) :
    Option (GameManager × Bool) :=
  match lastIdx? (fun g => g.game_code == game_code) gm.games 0 with
  | none => some (gm, false)
  | some game_to_remove =>
    match vecRemove gm.used_game_codes
        ((lastIdx? (fun c => c == game_code) gm.used_game_codes 0).getD 0) with
    | none => none
    | some codes2 =>
      match gm.game_by_code game_code with
      | none => none
      | some game =>
        match removeSeq gm.users
            (game.players.flatMap fun p =>
              matchIdxs (fun u => u.user_id == p.id) gm.users 0) with
        | none => none
        | some users2 =>
          match vecRemove gm.games game_to_remove with
          | none => none
          | some games2 =>
            some ({ gm with games := games2, users := users2, used_game_codes := codes2 }, true)

/-- Embeds `UserDisconnectedStatus` (`src/src/game/mod.rs` lines
382-391). -/
inductive UserDisconnectedStatus
  | GameNotFound
  | UserNotFound
  | GameAlive
  | GameDeleted
  deriving DecidableEq, Repr

/-- Outcome of the immediate phase of `user_disconnected`: either an
early return with a status, or proceeding to the deferred phase with
the game's code. -/
inductive Phase1Result
  | Returned (status : UserDisconnectedStatus)
  | Proceed (game_code : GameCode)
  deriving DecidableEq, Repr

/-- Embeds steps 1-4 of `user_disconnected` (`src/src/game/mod.rs` lines
341-364), everything done under the first write-lock acquisition before
the sleep: marks every user with the id as disconnected; returns
`UserNotFound` when the user does not exist, `GameNotFound` when no game
contains the id, `GameAlive` when some player of that game is still
connected, and otherwise proceeds with the game's code.  A `none`
models the `users_connected(game_code).unwrap()` panic. -/
def user_disconnected_phase1 (gm0 : GameManager) (user_id : Int) :
    Option (GameManager × Phase1Result) :=
  let gm : GameManager := { gm0 with users := (gm0.users.map fun u => if u.user_id == user_id then { u with connected := false } else u) }
  if gm.users.any fun u => u.user_id == user_id then
    match gm.game_by_user_id user_id with
    | none => some (gm, .Returned .GameNotFound)
    | some game =>
      match gm.users_connected game.game_code with
      | none => none
      | some true => some (gm, .Returned .GameAlive)
      | some false => some (gm, .Proceed game.game_code)
  else
    some (gm, .Returned .UserNotFound)

/-- Embeds steps 6-7 of `user_disconnected` (`src/src/game/mod.rs` lines
367-377), run on a freshly reacquired write lock after the
`GAME_INSTANCE_TIMEOUT` sleep: re-checks connectivity and deletes the
game when it is still abandoned.  A `none` models the
`users_connected(game_code).unwrap()` panic, which fires exactly when
the game was deleted during the sleep. -/
def user_disconnected_phase2 (gm : GameManager) (game_code : GameCode) :
    Option (GameManager × UserDisconnectedStatus) :=
  match gm.users_connected game_code with
  | none => none
  | some true => some (gm, .GameAlive)
  | some false =>
    match gm.delete_game game_code with
    | none => none
    | some (gm2, _) => some (gm2, .GameDeleted)

/-- The manager right after Alice created a game (fresh code `exCode`,
fresh user id 1). -/
def exManagerAlice : GameManager := (GameManager.new.create_game "Alice" none exCode 1).1

/-- The manager after Bob also joined Alice's game (fresh user id 2). -/
def exManagerTwo : GameManager := (exManagerAlice.add_player_to_game exCode "Bob" none 2).1

/-- The manager that results from deleting Alice's single-member game:
the game, its code and its user entry are gone but the used user id 1
is not released. -/
def exManagerDeleted : GameManager :=
  { games := [], users := [], used_user_ids := [1], used_game_codes := [] }

/-- One completed mutating `GameManager` operation, as invoked from the
request handlers of `src/src/requests.rs`.  The generator parameters
obey the freshness contract of `generate_game_code` and
`generate_user_id`: the generated value is outside the respective
used-set.  A `delete_game` call that panics has no successor state. -/
inductive Step : GameManager → GameManager → Prop
  | create (gm : GameManager) (username : String) (ip : Option IpAddr)
      (code : GameCode) (uid : Int)
      (hc : gm.used_game_codes.contains code = false)
      (hu : gm.used_user_ids.contains uid = false) :
      Step gm (gm.create_game username ip code uid).1
  | add (gm : GameManager) (code : GameCode) (username : String)
      (ip : Option IpAddr) (uid : Int)
      (hu : gm.used_user_ids.contains uid = false) :
      Step gm (gm.add_player_to_game code username ip uid).1
  | connect (gm : GameManager) (uid : Int) :
      Step gm (gm.user_connected uid).1
  | delete (gm gm2 : GameManager) (code : GameCode) (b : Bool)
      (h : gm.delete_game code = some (gm2, b)) :
      Step gm gm2

/-- States of the earlier-revision `GameManager` reachable from the
empty initial state by completed operations. -/
inductive Reachable : GameManager → Prop
  | base : Reachable GameManager.new
  | step {gm gm2 : GameManager} : Reachable gm → Step gm gm2 → Reachable gm2

end OldDraft

namespace NewDraft

/-- Modelled from the spec: the later-revision `User` referenced
throughout `src/src/game/game_instance/mod.rs` (fields `urid`,
`connected`, methods `name()`, `set_connected`) and wrapped by
`src/src/game/base_game.rs` is not under `src/` — only its users are.
Per spec §3 a participant carries a display name, an identity, a
recovery token and a connectivity flag; the 128-bit identities and
tokens are modelled as abstract numbers. -/
structure User where
  username : String
  uuid : Nat
  urid : Nat
  connected : Bool
  deriving DecidableEq, Repr

/-- Embeds `User::name` (clones the display name). -/
def User.name (u : User) : String := u.username

/-- Embeds `Player` (`src/src/game/base_game.rs` lines 6-11). -/
structure Player where
  user : User
  game_master : Bool
  deriving DecidableEq, Repr

/-- Embeds `Player::new` (`src/src/game/base_game.rs` lines 14-20): the
game-master flag starts cleared. -/
def Player.new (user : User) : Player :=
  { user := user, game_master := false }

/-- Modelled from the spec: the accessor `player.uuid()` used by
`src/src/game/game_instance/mod.rs` is not under `src/`
(`src/src/game/base_game.rs` only has `user_id()`); the identity of a
player is its user's identity. -/
def Player.uuid (p : Player) : Nat := p.user.uuid

/-- Embeds `GameState` (`src/src/game/game_instance/mod.rs` lines
205-209): only the lobby state exists. -/
inductive GameState
  | Lobby
  deriving DecidableEq, Repr

/-- Embeds the later-revision `GameInstance`
(`src/src/game/game_instance/mod.rs` lines 19-26). -/
structure GameInstance where
  players : List Player
  game_code : GameCode
  game_state : GameState
  deriving DecidableEq, Repr

/-- Embeds `GameInstance::new` (`src/src/game/game_instance/mod.rs`
lines 31-37). -/
def GameInstance.new (game_code : GameCode) : GameInstance :=
  { players := [], game_code := game_code, game_state := GameState.Lobby }

/-- Embeds `GameInstance::add_user` (`src/src/game/game_instance/mod.rs`
lines 48-56): appends a fresh player while in the lobby state (the only
state that exists in the source). -/
def GameInstance.add_user (g : GameInstance) (user : User) : GameInstance × Bool :=
  match g.game_state with
  | GameState.Lobby => ({ g with players := g.players ++ [Player.new user] }, true)

/-- Embeds the in-place mutation `new_gm.make_game_master()` through
`player_by_uuid_mut` in `GameInstance::set_game_master`: sets the
game-master flag on the first player with the uuid. -/
def makeFirstGameMaster : List Player → Nat → List Player
  | [], _ => []
  | p :: rest, uuid =>
    if p.uuid == uuid then { p with game_master := true } :: rest
    else p :: makeFirstGameMaster rest uuid

/-- Embeds `GameInstance::set_game_master`
(`src/src/game/game_instance/mod.rs` lines 71-84): when a player with
the uuid exists, makes the first such player game master and then
revokes the flag from every player that still holds it and has a
different uuid; returns false without mutation otherwise. -/
def GameInstance.set_game_master (g : GameInstance) (uuid : Nat) : GameInstance × Bool :=
  if g.players.any fun p => p.uuid == uuid then
    ({ g with players := ((makeFirstGameMaster g.players uuid).map fun p => if p.game_master && p.uuid != uuid then { p with game_master := false } else p) }, true)
  else (g, false)

/-- Embeds `GameInstance::does_player_exist`
(`src/src/game/game_instance/mod.rs` lines 117-124). -/
def GameInstance.does_player_exist (g : GameInstance) (name : String) : Bool :=
  g.players.any fun p => p.user.name == name

/-- Embeds `GameInstance::is_player_connected`
(`src/src/game/game_instance/mod.rs` lines 127-134): the connectivity
flag of the first player with the name, false when the name is
absent. -/
def GameInstance.is_player_connected (g : GameInstance) (name : String) : Bool :=
  match g.players.find? fun p => p.user.name == name with
  | some p => p.user.connected
  | none => false

/-- Embeds `UserRecovery` (`src/src/authentication.rs` lines 137-144);
the ip address is carried but never consulted by `validate_urid`.  The
recovery id is the abstract number inside the `Urid`. -/
structure UserRecovery where
  urid : Nat
  name : Option String
  ip_addr : Option IpAddr
  deriving DecidableEq, Repr

/-- Embeds `GameInstance::validate_urid`
(`src/src/game/game_instance/mod.rs` lines 141-149): the recovery id
must equal the recovery id of some player of this game. -/
def GameInstance.validate_urid (g : GameInstance) (ur : UserRecovery) : Bool :=
  g.players.any fun p => p.user.urid == ur.urid

/-- Embeds `GameInstance::user_connected`
(`src/src/game/game_instance/mod.rs` lines 154-162): marks the first
player with the uuid as connected. -/
def GameInstance.user_connected (g : GameInstance) (uuid : Nat) : GameInstance × Bool :=
  if g.players.any fun p => p.uuid == uuid then
    ({ g with players := (updateFirst (fun p => p.uuid == uuid) (fun p => { p with user := { p.user with connected := true } }) g.players) }, true)
  else (g, false)

/-- Embeds `GameInstance::abandoned`
(`src/src/game/game_instance/mod.rs` lines 170-178): true iff no
player's user is connected. -/
def GameInstance.abandoned (g : GameInstance) : Bool :=
  !(g.players.any fun p => p.user.connected)

/-- Modelled from the spec: the later-revision `UserRegistration`
(`crate::request_data`, used at `src/src/game/game_instance/mod.rs` line
198 and by `src/src/paths.rs`) is not under `src/`; per spec §6 the
registration carries the participant's identity and recovery token. -/
structure UserRegistration where
  uuid : Nat
  urid : Nat
  deriving DecidableEq, Repr

/-- Modelled from the spec: `UserRegistration::from_user` packages the
existing credentials of the user, minting nothing. -/
def UserRegistration.from_user (u : User) : UserRegistration :=
  { uuid := u.uuid, urid := u.urid }

/-- Embeds `GameInstance::user_registration`
(`src/src/game/game_instance/mod.rs` lines 195-202): the registration of
the first player with the name. -/
def GameInstance.user_registration (g : GameInstance) (name : String) : Option UserRegistration :=
  (g.players.find? fun p => p.user.name == name).map fun p => UserRegistration.from_user p.user

/-- Modelled from the spec: `UserRegistrationError` is imported by
`src/src/paths.rs` but not defined under `src/`; spec §4.3 and §7 give
the join failure taxonomy. -/
inductive UserRegistrationError
  | GameDoesNotExist
  | NameTaken
  | GameAlreadyStarted
  deriving DecidableEq, Repr

/-- Modelled from the spec: the later-revision `GameManager` used by
`src/src/paths.rs` is not under `src/`; it owns the live sessions (only
the parts the join contract needs are modelled). -/
structure GameManager where
  games : List GameInstance
  deriving DecidableEq, Repr

/-- Modelled from the spec: the later-revision
`GameManager::game_by_code`, lookup of the first session with the
code. -/
def GameManager.game_by_code (gm : GameManager) (code : GameCode) : Option GameInstance :=
  gm.games.find? fun g => g.game_code == code

/-- Modelled from the spec: the later-revision
`GameManager::add_player_to_game(event, game_code, username, ur)`
returning `Result<UserRegistration, UserRegistrationError>`, called from
`src/src/paths.rs` lines 73-101, is not under `src/`.  Spec §4.3
`join_session`: an unknown code fails with `GameDoesNotExist`; a display
name nobody holds registers a fresh participant (fresh `uuid`/`urid`
passed as parameters) and publishes an event (delivery not modelled); a
name held by a connected participant is `NameTaken` unless the supplied
recovery data validates against the session
(`GameInstance::validate_urid`), in which case the participant's
existing credentials are returned; a name held by a disconnected
participant is a reconnection that returns the existing credentials
without minting new identifiers. -/
def GameManager.add_player_to_game (gm : GameManager) (game_code : GameCode)
    (username : String) (ur : Option UserRecovery) (uuid urid : Nat) :
    GameManager × Except UserRegistrationError UserRegistration :=
  match gm.game_by_code game_code with
  | none => (gm, Except.error UserRegistrationError.GameDoesNotExist)
  | some game =>
    if game.does_player_exist username then
      if game.is_player_connected username then
        match ur with
        | some r =>
          if game.validate_urid r then
            match game.user_registration username with
            | some reg => (gm, Except.ok reg)
            | none => (gm, Except.error UserRegistrationError.NameTaken)
          else (gm, Except.error UserRegistrationError.NameTaken)
        | none => (gm, Except.error UserRegistrationError.NameTaken)
      else
        match game.user_registration username with
        | some reg => (gm, Except.ok reg)
        | none => (gm, Except.error UserRegistrationError.NameTaken)
    else
      ({ games := (updateFirst (fun g => g.game_code == game_code) (fun g => (g.add_user { username := username, uuid := uuid, urid := urid, connected := false }).1) gm.games) },
       Except.ok { uuid := uuid, urid := urid })

/-- Example user: Bob, identity 1, recovery token 11, connected. -/
def exUserBobConnected : User :=
  { username := "Bob", uuid := 1, urid := 11, connected := true }

/-- Example user: Bob, identity 1, recovery token 11, disconnected. -/
def exUserBobAway : User :=
  { username := "Bob", uuid := 1, urid := 11, connected := false }

/-- Example session holding only a connected Bob. -/
def exGameConnected : GameInstance :=
  { players := [{ user := exUserBobConnected, game_master := false }],
    game_code := exCode, game_state := GameState.Lobby }

/-- Example session holding only a disconnected Bob. -/
def exGameAway : GameInstance :=
  { players := [{ user := exUserBobAway, game_master := false }],
    game_code := exCode, game_state := GameState.Lobby }

/-- Example manager holding the session with a connected Bob. -/
def exManagerConnected : GameManager := { games := [exGameConnected] }

/-- Example manager holding the session with a disconnected Bob. -/
def exManagerAway : GameManager := { games := [exGameAway] }

/-- Example session with two players, Alice being the game master. -/
def exGameTwo : GameInstance :=
  { players :=
      [{ user := { username := "Alice", uuid := 3, urid := 13, connected := true },
         game_master := true },
       { user := exUserBobAway, game_master := false }],
    game_code := exCode, game_state := GameState.Lobby }

end NewDraft

namespace Auth

/-- Embeds `Urid` (`src/src/authentication.rs` lines 181-204): a
recovery id wrapping an abstract 128-bit value. -/
structure Urid where
  uuid : Nat
  deriving DecidableEq, Repr

/-- Embeds `Urid::value`. -/
def Urid.value (u : Urid) : Nat := u.uuid

/-- Embeds `Urids` (`src/src/authentication.rs` lines 206-212): the
used-id `HashSet` as a duplicate-free-by-construction list, the origin
`HashMap` as an association list. -/
structure Urids where
  used_urids : List Urid
  urid_by_ip : List (IpAddr × Urid)
  deriving DecidableEq, Repr

/-- Embeds `Urids::new`. -/
def Urids.new : Urids := { used_urids := [], urid_by_ip := [] }

/-- Embeds `HashMap::get`/`contains_key` on the origin map. -/
def mapGet (m : List (IpAddr × Urid)) (k : IpAddr) : Option Urid :=
  (m.find? fun kv => kv.1 == k).map fun kv => kv.2

/-- Embeds `HashMap::insert` on the origin map: overwrites the entry
when the key is present, appends otherwise. -/
def mapInsert (m : List (IpAddr × Urid)) (k : IpAddr) (v : Urid) : List (IpAddr × Urid) :=
  if m.any fun kv => kv.1 == k then
    m.map fun kv => if kv.1 == k then (k, v) else kv
  else m ++ [(k, v)]

/-- Embeds `HashSet::insert` on the used-id set: adds the value when
absent and reports whether it was newly added. -/
def setInsert (s : List Urid) (u : Urid) : List Urid × Bool :=
  if s.contains u then (s, false) else (s ++ [u], true)

/-- Embeds `Urids::add_urid` (`src/src/authentication.rs` lines
231-236): when an ip address is supplied and the origin map has no entry
for it, the id is stored for that origin (an existing entry is never
updated); the id is then added to the used-id set, returning whether it
was newly added. -/
def Urids.add_urid (s : Urids) (urid : Urid) (ip_addr : Option IpAddr) : Urids × Bool :=
  let s1 : Urids :=
    match ip_addr with
    | some ip =>
      if (mapGet s.urid_by_ip ip).isSome then s
      else { s with urid_by_ip := mapInsert s.urid_by_ip ip urid }
    | none => s
  let ins := setInsert s1.used_urids urid
  ({ s1 with used_urids := ins.1 }, ins.2)

/-- Embeds `Urids::register` (`src/src/authentication.rs` lines
249-266).  The freshly generated id from `generate_urid` is passed in as
`fresh`.  With an ip address whose origin already has an entry, that
existing id is returned and nothing is stored (the fresh id is
discarded); otherwise the fresh id is stored in the origin map and the
used-id set and returned. -/
def Urids.register (s : Urids) (fresh : Urid) (ip_addr : Option IpAddr) : Urids × Urid :=
  match ip_addr with
  | some ip =>
    match mapGet s.urid_by_ip ip with
    | some existing => (s, existing)
    | none =>
      ({ used_urids := (setInsert s.used_urids fresh).1,
         urid_by_ip := mapInsert s.urid_by_ip ip fresh }, fresh)
  | none => ({ s with used_urids := (setInsert s.used_urids fresh).1 }, fresh)

/-- Example recovery-id registry: origin 5 already claimed id 42. -/
def exUrids : Urids :=
  { used_urids := [{ uuid := 42 }], urid_by_ip := [(5, { uuid := 42 })] }

end Auth

-- ===== Theorems =====

/-- Any list of chars of length eight is literally an eight-element list. -/
theorem list_length_eight {l : List Char} (h : l.length = 8) :
    ∃ a b c d e f g h', l = [a, b, c, d, e, f, g, h'] := by
  rcases l with _ | ⟨a, l⟩; · simp at h
  rcases l with _ | ⟨b, l⟩; · simp at h
  rcases l with _ | ⟨c, l⟩; · simp at h
  rcases l with _ | ⟨d, l⟩; · simp at h
  rcases l with _ | ⟨e, l⟩; · simp at h
  rcases l with _ | ⟨f, l⟩; · simp at h
  rcases l with _ | ⟨g, l⟩; · simp at h
  rcases l with _ | ⟨h', l⟩; · simp at h
  rcases l with _ | ⟨i, l⟩
  · exact ⟨a, b, c, d, e, f, g, h', rfl⟩
  · simp at h

/-- C6: for every valid `GameCode` (eight characters drawn from the
game-code charset), parsing its rendered form round-trips:
`GameCode::from_string(c.to_string()) = Some(c)`. -/
theorem gameCode_roundtrip (c : GameCode) (hlen : c.game_code.length = 8)
    (hmem : ∀ ch ∈ c.game_code, ch ∈ GAME_CODE_CHARSET) :
    GameCode.from_string (GameCode.to_string c) = some c := by
  obtain ⟨l⟩ := c
  simp only at hlen hmem
  obtain ⟨a, b, c, d, e, f, g, h, rfl⟩ := list_length_eight hlen
  have ha : a ∈ GAME_CODE_CHARSET := hmem a (by simp)
  have hb : b ∈ GAME_CODE_CHARSET := hmem b (by simp)
  have hc : c ∈ GAME_CODE_CHARSET := hmem c (by simp)
  have hd : d ∈ GAME_CODE_CHARSET := hmem d (by simp)
  have he : e ∈ GAME_CODE_CHARSET := hmem e (by simp)
  have hf : f ∈ GAME_CODE_CHARSET := hmem f (by simp)
  have hg : g ∈ GAME_CODE_CHARSET := hmem g (by simp)
  have hh : h ∈ GAME_CODE_CHARSET := hmem h (by simp)
  simp [GameCode.from_string, GameCode.to_string, fromStringLoop,
    ha, hb, hc, hd, he, hf, hg, hh, List.set]

/-- C6 witness: the round-trip theorem applied to the concrete code
`ABCD-1234`. -/
theorem gameCode_roundtrip_witness :
    GameCode.from_string
        (GameCode.to_string { game_code := ['A', 'B', 'C', 'D', '1', '2', '3', '4'] }) =
      some { game_code := ['A', 'B', 'C', 'D', '1', '2', '3', '4'] } :=
  gameCode_roundtrip _ (by decide) (by decide)

/-- C5: `GameCode::from_string` does not reject every wrong-length
input: the empty string is accepted and produces the filler code
`aaaa-aaaa`, whose characters are not even in the game-code charset.
The guard `string.len() > 9` only rejects strings longer than nine
characters instead of requiring the exact rendered length of nine. -/
theorem from_string_accepts_empty :
    GameCode.from_string [] =
        some { game_code := ['a', 'a', 'a', 'a', 'a', 'a', 'a', 'a'] } ∧
      GameCode.from_string ['A', 'B', 'C'] =
        some { game_code := ['A', 'B', 'C', 'a', 'a', 'a', 'a', 'a'] } := by
  constructor <;> rfl

theorem lastIdx?_map (p : β → Bool) (f : α → β) : ∀ (l : List α) (i : Nat),
    lastIdx? p (l.map f) i = lastIdx? (fun x => p (f x)) l i
  | [], _ => rfl
  | x :: xs, i => by
    simp only [List.map_cons, lastIdx?, lastIdx?_map p f xs (i + 1)]

theorem lastIdx?_lt (p : α → Bool) : ∀ (l : List α) (i j : Nat),
    lastIdx? p l i = some j → j < i + l.length
  | [], _, _, h => by simp [lastIdx?] at h
  | x :: xs, i, j, h => by
    rw [lastIdx?] at h
    cases hrec : lastIdx? p xs (i + 1) with
    | some k =>
      rw [hrec] at h
      cases h
      have := lastIdx?_lt p xs (i + 1) j hrec
      simp only [List.length_cons]
      omega
    | none =>
      rw [hrec] at h
      by_cases hp : p x
      · rw [if_pos hp] at h
        cases h
        simp only [List.length_cons]
        omega
      · rw [if_neg hp] at h
        cases h

theorem map_eraseIdx (f : α → β) : ∀ (l : List α) (i : Nat),
    (l.eraseIdx i).map f = (l.map f).eraseIdx i
  | [], _ => rfl
  | _ :: _, 0 => rfl
  | x :: xs, n + 1 => by
    simp only [List.eraseIdx, List.map_cons, map_eraseIdx f xs n]

theorem any_eq_find?_isSome (p : α → Bool) : ∀ l : List α,
    l.any p = (l.find? p).isSome
  | [] => rfl
  | x :: xs => by
    by_cases hx : p x <;> simp [List.find?_cons, hx, any_eq_find?_isSome p xs]

theorem contains_map_eq_any [DecidableEq β] (f : α → β) (b : β) : ∀ l : List α,
    (l.map f).contains b = l.any fun x => f x == b
  | [] => rfl
  | x :: xs => by
    simp only [List.map_cons, List.contains_cons, List.any_cons,
      contains_map_eq_any f b xs]
    congr 1
    by_cases h : f x = b
    · simp [h]
    · simp [beq_iff_eq, h, Ne.symm h]

theorem countP_updateFirst (p : α → Bool) (f : α → α) (q : α → Bool)
    (hf : ∀ x, q (f x) = q x) : ∀ l : List α,
    (updateFirst p f l).countP q = l.countP q
  | [] => rfl
  | x :: xs => by
    by_cases hx : p x <;>
      simp [updateFirst, hx, List.countP_cons, hf, countP_updateFirst p f q hf xs]

theorem map_updateFirst (p : α → Bool) (f : α → α) (g : α → β)
    (hf : ∀ x, g (f x) = g x) : ∀ l : List α,
    (updateFirst p f l).map g = l.map g
  | [] => rfl
  | x :: xs => by
    by_cases hx : p x <;>
      simp [updateFirst, hx, hf, map_updateFirst p f g hf xs]


theorem find?_append_none {p : α → Bool} {l1 : List α} (l2 : List α)
    (h : l1.find? p = none) : (l1 ++ l2).find? p = l2.find? p := by
  induction l1 with
  | nil => rfl
  | cons x xs ih =>
    by_cases hx : p x = true
    · rw [List.find?_cons_of_pos _ hx] at h; cases h
    · rw [List.find?_cons_of_neg _ hx] at h
      rw [List.cons_append, List.find?_cons_of_neg _ hx]
      exact ih h

namespace OldDraft

/-- C2 (code-bug evidence): when the session referenced by an in-flight
disconnect was deleted during the sleep between the two phases
(`exManagerDeleted` is exactly the state a concurrent single-member
`delete_game` leaves behind), the deferred phase panics on the
`users_connected(game_code).unwrap()` of step 6 instead of completing as
a no-op, while the immediate phase on the same state does return
normally with a status. -/
theorem user_disconnected_phase2_panics :
    user_disconnected_phase2 exManagerDeleted exCode = none ∧
      user_disconnected_phase1 exManagerDeleted 1 =
        some (exManagerDeleted, Phase1Result.Returned UserDisconnectedStatus.UserNotFound) :=
  ⟨rfl, rfl⟩

/-- C3 (code-bug evidence): `delete_game` returns false without
mutation for an unknown code, but on a session with two members the
user-removal loop panics through an out-of-bounds `Vec::remove`
(indices were recorded before earlier removals shifted the vector), and
even the successful single-member deletion never releases the member's
identity from `used_user_ids`. -/
theorem delete_game_bug :
    GameManager.new.delete_game exCode = some (GameManager.new, false) ∧
      exManagerTwo.delete_game exCode = none ∧
      exManagerAlice.delete_game exCode = some (exManagerDeleted, true) ∧
      exManagerDeleted.used_user_ids = [1] :=
  ⟨rfl, rfl, rfl, rfl⟩

theorem set_game_master_code (g : GameInstance) (id : Int) :
    (g.set_game_master id).1.game_code = g.game_code := by
  unfold GameInstance.set_game_master
  split <;> rfl

theorem create_game_sync (gm : GameManager) (username : String) (ip : Option IpAddr)
    (code : GameCode) (uid : Int)
    (hI : gm.used_game_codes = gm.games.map fun g => g.game_code) :
    (gm.create_game username ip code uid).1.used_game_codes =
      (gm.create_game username ip code uid).1.games.map fun g => g.game_code := by
  simp only [GameManager.create_game, List.map_append, hI]
  simp [set_game_master_code, GameInstance.add_player, GameInstance.new]

theorem add_player_sync (gm : GameManager) (code : GameCode) (username : String)
    (ip : Option IpAddr) (uid : Int)
    (hI : gm.used_game_codes = gm.games.map fun g => g.game_code) :
    (gm.add_player_to_game code username ip uid).1.used_game_codes =
      (gm.add_player_to_game code username ip uid).1.games.map fun g => g.game_code := by
  unfold GameManager.add_player_to_game
  cases hg : gm.game_by_code code with
  | none => exact hI
  | some g =>
    simp only
    rw [map_updateFirst (fun g => g.game_code == code)
      (fun g => g.add_player (User.new ip username uid).username (User.new ip username uid).user_id)
      (fun g => g.game_code) (fun x => rfl) gm.games]
    exact hI

theorem user_connected_sync (gm : GameManager) (uid : Int)
    (hI : gm.used_game_codes = gm.games.map fun g => g.game_code) :
    (gm.user_connected uid).1.used_game_codes =
      (gm.user_connected uid).1.games.map fun g => g.game_code := by
  unfold GameManager.user_connected
  split <;> exact hI

theorem delete_game_sync {gm gm2 : GameManager} {code : GameCode} {b : Bool}
    (hI : gm.used_game_codes = gm.games.map fun g => g.game_code)
    (h : gm.delete_game code = some (gm2, b)) :
    gm2.used_game_codes = gm2.games.map fun g => g.game_code := by
  unfold GameManager.delete_game at h
  cases hl : lastIdx? (fun g => g.game_code == code) gm.games 0 with
  | none =>
    simp only [hl, Option.some.injEq, Prod.mk.injEq] at h
    rw [← h.1]
    exact hI
  | some j =>
    have hcode : lastIdx? (fun c => c == code) gm.used_game_codes 0 = some j := by
      rw [hI, lastIdx?_map]
      exact hl
    have hjlen : j < gm.used_game_codes.length := by
      have hx := lastIdx?_lt (fun c => c == code) gm.used_game_codes 0 j hcode
      omega
    have hjg : j < gm.games.length := by
      rw [hI, List.length_map] at hjlen
      exact hjlen
    cases hg : gm.game_by_code code with
    | none =>
      simp only [hl, hcode, Option.getD_some, vecRemove, hjlen, if_true, hg] at h
      exact Option.noConfusion h
    | some game =>
      cases hr : removeSeq gm.users
          (game.players.flatMap fun p =>
            matchIdxs (fun u => u.user_id == p.id) gm.users 0) with
      | none =>
        simp only [hl, hcode, Option.getD_some, vecRemove, hjlen, if_true, hg, hr] at h
        exact Option.noConfusion h
      | some users2 =>
        simp only [hl, hcode, Option.getD_some, vecRemove, hjlen, hjg, if_true, hg, hr,
          Option.some.injEq, Prod.mk.injEq] at h
        rw [← h.1, hI]
        exact (map_eraseIdx (fun g => g.game_code) gm.games j).symm

/-- C10: in every `GameManager` state reachable from the empty initial
state by `create_game`, `add_player_to_game`, `user_connected` and
completed `delete_game` calls, the used-game-code list holds exactly the
codes of the stored games, and consequently `does_game_exist(code)`
answers exactly whether `game_by_code(code)` finds a game. -/
theorem used_codes_sync (gm : GameManager) (h : Reachable gm) :
    gm.used_game_codes = (gm.games.map fun g => g.game_code) ∧
      ∀ code, gm.does_game_exist code = (gm.game_by_code code).isSome := by
  have hI : gm.used_game_codes = gm.games.map fun g => g.game_code := by
    induction h with
    | base => rfl
    | step hr hs ih =>
      cases hs with
      | create username ip code uid hc hu => exact create_game_sync _ username ip code uid ih
      | add code username ip uid hu => exact add_player_sync _ code username ip uid ih
      | connect uid => exact user_connected_sync _ uid ih
      | delete gm2 code b hd => exact delete_game_sync ih hd
  refine ⟨hI, fun code => ?_⟩
  unfold GameManager.does_game_exist GameManager.game_by_code
  rw [hI, contains_map_eq_any, any_eq_find?_isSome]

/-- C10 witness: the synchronisation theorem applied to the concrete
reachable state in which Alice has created the game `exCode`. -/
theorem used_codes_sync_witness :
    exManagerAlice.used_game_codes = (exManagerAlice.games.map fun g => g.game_code) ∧
      exManagerAlice.does_game_exist exCode = (exManagerAlice.game_by_code exCode).isSome := by
  have h : Reachable exManagerAlice :=
    Reachable.step Reachable.base (Step.create GameManager.new "Alice" none exCode 1 rfl rfl)
  exact ⟨(used_codes_sync exManagerAlice h).1, (used_codes_sync exManagerAlice h).2 exCode⟩

/-- C9: every `User` is constructed with `connected = false`, so
immediately after `create_game` returns (the fresh code and fresh user
id are expressed by the two hypotheses) the new session has no connected
participant — `users_connected` reports `Some(false)` — and any
later-revision session all of whose members are disconnected is
abandoned in the sense of `GameInstance::abandoned`. -/
theorem create_game_abandoned (gm : GameManager) (username : String)
    (ip : Option IpAddr) (code : GameCode) (uid : Int)
    (hg : gm.game_by_code code = none)
    (hu : ∀ u ∈ gm.users, u.user_id ≠ uid) :
    (User.new ip username uid).connected = false ∧
      (gm.create_game username ip code uid).1.users_connected code = some false ∧
      ∀ g : NewDraft.GameInstance,
        (∀ p ∈ g.players, p.user.connected = false) → g.abandoned = true := by
  refine ⟨rfl, ?_, ?_⟩
  · unfold GameManager.game_by_code at hg
    unfold GameManager.users_connected GameManager.game_by_code GameManager.create_game
    simp only
    rw [find?_append_none _ hg]
    have husers : gm.users.any (fun u => uid == u.user_id && u.connected) = false := by
      rw [List.any_eq_false]
      intro u hmem
      have hne := hu u hmem
      simp only [Bool.and_eq_true, beq_iff_eq, not_and]
      intro heq
      exact absurd heq.symm hne
    simp [GameInstance.new, GameInstance.add_player, GameInstance.set_game_master,
      User.new, List.find?, husers]
  · intro g hall
    unfold NewDraft.GameInstance.abandoned
    have : g.players.any (fun p => p.user.connected) = false := by
      rw [List.any_eq_false]
      intro p hmem
      simp [hall p hmem]
    rw [this]
    rfl

/-- C9 witness: the abandonment theorem applied to the concrete creation
of Alice's game from the empty manager. -/
theorem create_game_abandoned_witness :
    (GameManager.new.create_game "Alice" none exCode 1).1.users_connected exCode = some false :=
  (create_game_abandoned GameManager.new "Alice" none exCode 1 rfl
    (by intro u h; simp [GameManager.new] at h)).2.1

end OldDraft

namespace NewDraft

/-- C1: when the session exists, some participant already holds the
requested display name and is connected, and no supplied recovery data
validates against the session, the join returns the `NameTaken` failure
and leaves the manager — in particular the session's participant list —
unchanged, so no second live participant with the name is ever
appended. -/
theorem join_name_taken (gm : GameManager) (code : GameCode) (username : String)
    (ur : Option UserRecovery) (uuid urid : Nat) (game : GameInstance)
    (hg : gm.game_by_code code = some game)
    (hex : game.does_player_exist username = true)
    (hconn : game.is_player_connected username = true)
    (htok : ∀ r, ur = some r → game.validate_urid r = false) :
    gm.add_player_to_game code username ur uuid urid =
      (gm, Except.error UserRegistrationError.NameTaken) := by
  unfold GameManager.add_player_to_game
  cases ur with
  | none => simp [hg, hex, hconn]
  | some r => simp [hg, hex, hconn, htok r rfl]

/-- C1 witness: joining as the still-connected Bob without recovery
data is rejected with `NameTaken` and changes nothing. -/
theorem join_name_taken_witness :
    exManagerConnected.add_player_to_game exCode "Bob" none 2 12 =
      (exManagerConnected, Except.error UserRegistrationError.NameTaken) :=
  join_name_taken exManagerConnected exCode "Bob" none 2 12 exGameConnected rfl rfl rfl
    (fun _ h => Option.noConfusion h)

/-- C4: joining twice with the same display name and a valid matching
recovery token while the named participant is marked disconnected
returns that participant's existing credentials both times and leaves
the manager unchanged: no second participant is created and the fresh
identifier parameters do not appear in the result. -/
theorem join_reconnect_idempotent (gm : GameManager) (code : GameCode)
    (username : String) (r : UserRecovery) (u1 u2 u3 u4 : Nat) (game : GameInstance)
    (hg : gm.game_by_code code = some game)
    (hex : game.does_player_exist username = true)
    (hconn : game.is_player_connected username = false)
    (_hv : game.validate_urid r = true) :
    ∃ reg, game.user_registration username = some reg ∧
      gm.add_player_to_game code username (some r) u1 u2 = (gm, Except.ok reg) ∧
      gm.add_player_to_game code username (some r) u3 u4 = (gm, Except.ok reg) := by
  have hreg : ∃ reg, game.user_registration username = some reg := by
    unfold GameInstance.does_player_exist at hex
    unfold GameInstance.user_registration
    rw [any_eq_find?_isSome] at hex
    cases hf : game.players.find? fun p => p.user.name == username with
    | none => rw [hf] at hex; cases hex
    | some p => exact ⟨UserRegistration.from_user p.user, rfl⟩
  obtain ⟨reg, hreg⟩ := hreg
  refine ⟨reg, hreg, ?_, ?_⟩ <;>
  · unfold GameManager.add_player_to_game
    simp [hg, hex, hconn, hreg]

/-- C4 witness: Bob reconnects twice with his recovery token 11 while
disconnected; both calls return his existing credentials `(1, 11)` and
leave the manager unchanged. -/
theorem join_reconnect_idempotent_witness :
    exManagerAway.add_player_to_game exCode "Bob"
        (some { urid := 11, name := some "Bob", ip_addr := none }) 7 17 =
      (exManagerAway, Except.ok { uuid := 1, urid := 11 }) ∧
    exManagerAway.add_player_to_game exCode "Bob"
        (some { urid := 11, name := some "Bob", ip_addr := none }) 8 18 =
      (exManagerAway, Except.ok { uuid := 1, urid := 11 }) := by
  obtain ⟨reg, hreg, h1, h2⟩ := join_reconnect_idempotent exManagerAway exCode "Bob"
    { urid := 11, name := some "Bob", ip_addr := none } 7 17 8 18 exGameAway rfl rfl rfl rfl
  have hr : reg = { uuid := 1, urid := 11 } := by
    have hsome : (some reg : Option UserRegistration) = some { uuid := 1, urid := 11 } := by
      rw [← hreg]
      rfl
    exact Option.some.inj hsome
  rw [hr] at h1 h2
  exact ⟨h1, h2⟩

theorem makeFirstGameMaster_map_uuid (uuid : Nat) : ∀ l : List Player,
    (makeFirstGameMaster l uuid).map Player.uuid = l.map Player.uuid
  | [] => rfl
  | p :: rest => by
    simp only [makeFirstGameMaster]
    by_cases hp : (p.uuid == uuid) = true
    · rw [if_pos hp]
      simp [Player.uuid]
    · rw [if_neg hp]
      simp [Player.uuid, makeFirstGameMaster_map_uuid uuid rest]

theorem pass2_map_uuid (uuid : Nat) (l : List Player) :
    ((l.map fun p => if p.game_master && p.uuid != uuid then { p with game_master := false } else p).map Player.uuid) = l.map Player.uuid := by
  rw [List.map_map]
  apply List.map_congr_left
  intro p _
  simp only [Function.comp]
  split <;> simp [Player.uuid]

theorem makeFirstGameMaster_target (uuid : Nat) : ∀ l : List Player,
    (l.any fun p => p.uuid == uuid) = true →
    ∃ q ∈ ((makeFirstGameMaster l uuid).map fun p => if p.game_master && p.uuid != uuid then { p with game_master := false } else p), q.uuid = uuid ∧ q.game_master = true
  | [], h => by cases h
  | p :: rest, h => by
    by_cases hp : (p.uuid == uuid) = true
    · have hbeq : (p.user.uuid == uuid) = true := hp
      simp only [makeFirstGameMaster, if_pos hp, List.map_cons]
      refine ⟨{ p with game_master := true }, ?_, ?_, rfl⟩
      · simp [Player.uuid, bne, hbeq]
      · have := hbeq
        simp only [beq_iff_eq] at this
        simpa [Player.uuid] using this
    · simp only [makeFirstGameMaster, if_neg hp, List.map_cons]
      have hrest : (rest.any fun p => p.uuid == uuid) = true := by
        simp only [List.any_cons, Bool.or_eq_true] at h
        rcases h with h | h
        · exact absurd h hp
        · exact h
      obtain ⟨q, hqmem, hq1, hq2⟩ := makeFirstGameMaster_target uuid rest hrest
      exact ⟨q, List.mem_cons_of_mem _ hqmem, hq1, hq2⟩

theorem set_game_master_target (g : GameInstance) (uuid : Nat)
    (hmatch : (g.players.any fun p => p.uuid == uuid) = true) :
    (g.set_game_master uuid).2 = true ∧
      ∃ q ∈ (g.set_game_master uuid).1.players, q.uuid = uuid ∧ q.game_master = true := by
  unfold GameInstance.set_game_master
  rw [hmatch]
  simp only [if_true]
  constructor
  · trivial
  · exact makeFirstGameMaster_target uuid g.players hmatch

/-- C7: the owner flag is exclusive.  In order: `set_game_master`
returns false without mutation when no player has the uuid; every newly
created player starts with the flag cleared; when a player with the uuid
exists, after the call only players with that uuid hold the flag; such a
call returns true and does set the flag on a player with the targeted
uuid; under distinct identities the call leaves at most one flag holder;
`add_user` and `user_connected` preserve the at-most-one-owner bound, so
every operation preserves the invariant. -/
theorem game_master_exclusive :
    (∀ (g : GameInstance) (uuid : Nat),
        (g.players.any fun p => p.uuid == uuid) = false →
        g.set_game_master uuid = (g, false)) ∧
    (∀ u : User, (Player.new u).game_master = false) ∧
    (∀ (g : GameInstance) (uuid : Nat),
        (g.players.any fun p => p.uuid == uuid) = true →
        ∀ q ∈ (g.set_game_master uuid).1.players, q.game_master = true → q.uuid = uuid) ∧
    (∀ (g : GameInstance) (uuid : Nat),
        (g.players.any fun p => p.uuid == uuid) = true →
        (g.set_game_master uuid).2 = true ∧
          ∃ q ∈ (g.set_game_master uuid).1.players, q.uuid = uuid ∧ q.game_master = true) ∧
    (∀ (g : GameInstance) (uuid : Nat),
        (g.players.map Player.uuid).Nodup →
        (g.players.countP fun p => p.game_master) ≤ 1 →
        ((g.set_game_master uuid).1.players.countP fun p => p.game_master) ≤ 1) ∧
    (∀ (g : GameInstance) (u : User),
        (g.players.countP fun p => p.game_master) ≤ 1 →
        ((g.add_user u).1.players.countP fun p => p.game_master) ≤ 1) ∧
    (∀ (g : GameInstance) (uuid : Nat),
        ((g.user_connected uuid).1.players.countP fun p => p.game_master) =
          g.players.countP fun p => p.game_master) := by
  have honly : ∀ (g : GameInstance) (uuid : Nat),
      (g.players.any fun p => p.uuid == uuid) = true →
      ∀ q ∈ (g.set_game_master uuid).1.players, q.game_master = true → q.uuid = uuid := by
    intro g uuid hmatch q hq hgm
    unfold GameInstance.set_game_master at hq
    rw [hmatch] at hq
    simp only [if_true, List.mem_map] at hq
    obtain ⟨p, hp, rfl⟩ := hq
    by_cases hc : (p.game_master && p.uuid != uuid) = true
    · rw [if_pos hc] at hgm
      cases hgm
    · rw [if_neg hc] at hgm ⊢
      simp only [hgm, Bool.true_and, Bool.not_eq_true] at hc
      simpa [Player.uuid, bne] using hc
  refine ⟨?_, fun u => rfl, honly, fun g uuid h => set_game_master_target g uuid h, ?_, ?_, ?_⟩
  · intro g uuid h
    unfold GameInstance.set_game_master
    rw [h]
    rfl
  · intro g uuid hnd hle
    by_cases hmatch : (g.players.any fun p => p.uuid == uuid) = true
    · have hmono := List.countP_mono_left
        (l := (g.set_game_master uuid).1.players)
        (p := fun p => p.game_master) (q := fun p => p.uuid == uuid)
        (fun q hq hgm => by
          have := honly g uuid hmatch q hq hgm
          simp [this])
      refine le_trans hmono ?_
      have huuid : ((g.set_game_master uuid).1.players.map Player.uuid) =
          g.players.map Player.uuid := by
        unfold GameInstance.set_game_master
        rw [hmatch]
        simp only [if_true]
        rw [pass2_map_uuid, makeFirstGameMaster_map_uuid]
      have hcount : ((g.set_game_master uuid).1.players.countP fun p => p.uuid == uuid) =
          List.count uuid (g.players.map Player.uuid) := by
        rw [List.count_eq_countP, ← huuid, List.countP_map]
        rfl
      rw [hcount]
      exact List.nodup_iff_count_le_one.mp hnd uuid
    · rw [Bool.not_eq_true] at hmatch
      unfold GameInstance.set_game_master
      rw [hmatch]
      simpa using hle
  · intro g u hle
    have hst : g.game_state = GameState.Lobby := by cases g.game_state; rfl
    have hpl : (g.add_user u).1.players = g.players ++ [Player.new u] := by
      unfold GameInstance.add_user
      rw [hst]
    rw [hpl, List.countP_append]
    have hz : List.countP (fun p => p.game_master) [Player.new u] = 0 := by
      simp [Player.new]
    omega
  · intro g uuid
    unfold GameInstance.user_connected
    by_cases h : (g.players.any fun p => p.uuid == uuid) = true
    · rw [h]
      simp only [if_true]
      exact countP_updateFirst (fun p => p.uuid == uuid)
        (fun p => { p with user := { p.user with connected := true } })
        (fun p => p.game_master) (fun x => rfl) g.players
    · rw [Bool.not_eq_true] at h
      rw [h]
      rfl

/-- C7 witness: the exclusivity theorem applied to the concrete
two-player session: an unknown uuid is a no-op returning false, while
targeting Bob's uuid 1 succeeds and leaves at most one flag holder. -/
theorem game_master_exclusive_witness :
    exGameTwo.set_game_master 99 = (exGameTwo, false) ∧
      (exGameTwo.set_game_master 1).2 = true ∧
      ((exGameTwo.set_game_master 1).1.players.countP fun p => p.game_master) ≤ 1 :=
  ⟨game_master_exclusive.1 exGameTwo 99 (by decide),
    (game_master_exclusive.2.2.2.1 exGameTwo 1 (by decide)).1,
    game_master_exclusive.2.2.2.2.1 exGameTwo 1 (by decide) (by decide)⟩

end NewDraft

namespace Auth

/-- C8: associating a recovery id with a network origin is
first-claim-wins: when the origin already has an entry, `register`
returns the existing id without any change and `add_urid` leaves the
origin map untouched; only when the origin has no entry is the new id
stored for it. -/
theorem urid_first_claim_wins (s : Urids) (fresh urid : Urid) (ip : IpAddr) (v : Urid) :
    (mapGet s.urid_by_ip ip = some v →
      s.register fresh (some ip) = (s, v) ∧
        (s.add_urid urid (some ip)).1.urid_by_ip = s.urid_by_ip) ∧
    (mapGet s.urid_by_ip ip = none →
      mapGet (s.register fresh (some ip)).1.urid_by_ip ip = some fresh ∧
        mapGet (s.add_urid urid (some ip)).1.urid_by_ip ip = some urid) := by
  constructor
  · intro h
    constructor
    · unfold Urids.register
      simp [h]
    · unfold Urids.add_urid
      simp [h]
  · intro h
    have hf : s.urid_by_ip.find? (fun kv => kv.1 == ip) = none := by
      unfold mapGet at h
      cases hx : s.urid_by_ip.find? fun kv => kv.1 == ip with
      | none => rfl
      | some kv => rw [hx] at h; cases h
    have hany : (s.urid_by_ip.any fun kv => kv.1 == ip) = false := by
      rw [any_eq_find?_isSome, hf]
      rfl
    have hins : ∀ w : Urid, mapGet (mapInsert s.urid_by_ip ip w) ip = some w := by
      intro w
      unfold mapInsert
      rw [hany]
      simp only [Bool.false_eq_true, if_false]
      unfold mapGet
      rw [find?_append_none _ hf]
      simp [List.find?]
    constructor
    · unfold Urids.register
      simp only [h]
      exact hins fresh
    · unfold Urids.add_urid
      simp only [h, Option.isSome_none, Bool.false_eq_true, if_false]
      exact hins urid

/-- C8 witness: the first-claim theorem applied to the registry where
origin 5 already claimed id 42. -/
theorem urid_first_claim_wins_witness :
    exUrids.register { uuid := 7 } (some 5) = (exUrids, { uuid := 42 }) ∧
      (exUrids.add_urid { uuid := 7 } (some 5)).1.urid_by_ip = exUrids.urid_by_ip :=
  (urid_first_claim_wins exUrids { uuid := 7 } { uuid := 7 } 5 { uuid := 42 }).1 rfl

end Auth

end Acquire
